import Mathlib

/-!
Verification development for the image-gen story backend (src/index.js).

Each definition below is a shallow embedding of a function or handler of the
source.  Outbound HTTP calls are modelled as environment parameters
(functions from the attempt index to the call's outcome), JavaScript
exceptions as `Except` / explicit error fields, JS objects as
insertion-ordered association lists, and the file system as an association
list from path to mtime (in milliseconds).
-/

/-- Outcome of a failed axios call: `status` is `error.response?.status`
(`none` when there was no HTTP response at all), `message` is
`error.message`. -/
structure HttpFailure where
  status : Option Nat
  message : String
deriving DecidableEq

/-- A char matched by the source regex handling of control characters,
from `escapeJsonString` (index.js:71-73): the ranges U+0000-U+001F and
U+007F-U+009F. -/
def isJsControlChar (c : Char) : Bool :=
  c.toNat ≤ 0x1F || (0x7F ≤ c.toNat && c.toNat ≤ 0x9F)

/-- `escapeJsonString` (index.js:71-73): removes every control character
(the regex replaces them with the empty string). -/
def escapeJsonString (str : String) : String :=
  String.mk (str.data.filter (fun c => !(isJsControlChar c)))

/-- The parsed story object: a JS object embedded as an insertion-ordered
association list of string fields. -/
abbrev StoryData := List (String × String)

/-- An error escaping `makeChatRequest`: either the axios error rethrown
unchanged (index.js:116) or the `new Error('Failed to parse JSON response')`
thrown at index.js:107. -/
inductive ChatErr
  | upstream (e : HttpFailure)
  | parseFailure (message : String)
deriving DecidableEq

/-- `MAX_RETRIES` (index.js:22). -/
def MAX_RETRIES : Nat := 5

/-- `makeChatRequest` (index.js:75-119), embedded over an environment.
`env n` is the outcome of the n-th chat-completion POST (a raw content
string or an axios failure); `parseJson` models `JSON.parse` on the
sanitized content (`none` = a SyntaxError is thrown).  Returns the result
together with the number of POST calls made.  The first argument is fuel;
the recursion happens only while `retries < MAX_RETRIES`, so from the entry
point (fuel `MAX_RETRIES + 1`, retries 0) the fuel never runs out and the
fuel-zero branch is unreachable. -/
def makeChatRequestAux (env : Nat → Except HttpFailure String)
    (parseJson : String → Option StoryData) :
    Nat → Nat → Except ChatErr StoryData × Nat
  | 0, _ => (.error (.upstream { status := none, message := "unreachable" }), 0)
  | fuel + 1, retries =>
    match env retries with
    | .ok content =>
      -- content = response.data.choices[0].message.content, then sanitized
      let sanitized := escapeJsonString content
      match parseJson sanitized with
      | some storyData => (.ok storyData, 1)
      | none =>
        -- the raw content is only written to the console; the thrown error
        -- carries the fixed message and nothing else (index.js:105-107).
        -- That Error has no `.response`, so the outer catch rethrows it.
        (.error (.parseFailure "Failed to parse JSON response"), 1)
    | .error e =>
      if e.status = some 429 ∧ retries < MAX_RETRIES then
        let r := makeChatRequestAux env parseJson fuel (retries + 1)
        (r.1, r.2 + 1)
      else
        (.error (.upstream e), 1)

/-- Entry point of `makeChatRequest`: retries start at 0. -/
def makeChatRequest (env : Nat → Except HttpFailure String)
    (parseJson : String → Option StoryData) : Except ChatErr StoryData × Nat :=
  makeChatRequestAux env parseJson (MAX_RETRIES + 1) 0

/-- `makeRequestWithRetry` (index.js:50-59), embedded over an environment.
`op i` is the outcome of the POST issued in loop iteration `i`.  Returns
the value of the function (`none` models the `undefined` returned when the
loop body never runs, i.e. `maxRetries = 0`) together with the number of
calls made.  The first `Nat` is fuel with the invariant
`fuel = maxRetries - i`, so the fuel-zero branch is exactly the loop's
exit with `i ≥ maxRetries`. -/
def makeRequestWithRetryAux {α : Type} (op : Nat → Except HttpFailure α)
    (maxRetries : Nat) :
    Nat → Nat → Option (Except HttpFailure α) × Nat
  | 0, _ => (none, 0)
  | fuel + 1, i =>
    match op i with
    | .ok v => (some (.ok v), 1)
    | .error e =>
      -- the catch block rethrows only on the last iteration; otherwise it
      -- sleeps and retries, REGARDLESS of the error's status code.
      if i = maxRetries - 1 then (some (.error e), 1)
      else
        let r := makeRequestWithRetryAux op maxRetries fuel (i + 1)
        (r.1, r.2 + 1)

/-- Entry point of `makeRequestWithRetry`: loop index starts at 0. -/
def makeRequestWithRetry {α : Type} (op : Nat → Except HttpFailure α)
    (maxRetries : Nat) : Option (Except HttpFailure α) × Nat :=
  makeRequestWithRetryAux op maxRetries maxRetries 0

/-- Kernel-executable string helpers, used so that concrete runs of the
embedded code evaluate inside proofs.  `stripPrefixChars pat l` returns
the remainder of `l` after `pat` when `pat` is a prefix of `l`. -/
def stripPrefixChars : List Char → List Char → Option (List Char)
  | [], l => some l
  | _ :: _, [] => none
  | c :: cs, x :: xs => if c = x then stripPrefixChars cs xs else none

/-- JS `String.prototype.split` with a nonempty string separator, on char
lists.  The first argument is fuel; the entry point passes the list's
length, which bounds the recursion depth because every separator match
consumes at least one character. -/
def jsSplitCharsAux (sep : List Char) : Nat → List Char → List (List Char)
  | _, [] => [[]]
  | 0, l => [l]
  | fuel + 1, x :: xs =>
    match stripPrefixChars sep (x :: xs) with
    | some rest => [] :: jsSplitCharsAux sep fuel rest
    | none =>
      match jsSplitCharsAux sep fuel xs with
      | [] => [[x]]
      | h :: t => (x :: h) :: t

/-- JS `s.split(sep)` for a nonempty `sep`: splits at every leftmost
non-overlapping occurrence, keeping empty pieces, `[""]` on empty input. -/
def jsSplit (sep : String) (s : String) : List String :=
  (jsSplitCharsAux sep.data s.data.length s.data).map String.mk

/-- JS `String.prototype.toLowerCase`, charwise. -/
def strToLower (s : String) : String :=
  String.mk (s.data.map Char.toLower)

/-- JS `String.prototype.startsWith`. -/
def strStartsWith (s pre : String) : Bool :=
  (stripPrefixChars pre.data s.data).isSome

/-- JS `String.prototype.endsWith`. -/
def strEndsWith (s post : String) : Bool :=
  (stripPrefixChars post.data.reverse s.data.reverse).isSome

/-- JS `String.prototype.trim`: strips leading and trailing whitespace. -/
def jsTrim (s : String) : String :=
  String.mk (((s.data.dropWhile Char.isWhitespace).reverse.dropWhile Char.isWhitespace).reverse)

/-- The stopword list of `generateStoryName` (index.js:190). -/
def stopWords : List String :=
  ["the", "a", "an", "is", "was", "and", "of", "in", "on"]

/-- `generateStoryName` (index.js:188-194).  Note the tokenization:
`summary.split(' ')` splits on the single space character U+0020. -/
def generateStoryName (summary : String) : String :=
  let words := jsSplit " " summary
  let filteredWords := words.filter (fun word => !(stopWords.contains (strToLower word)))
  let nameWords := filteredWords.take (min filteredWords.length 3)
  String.intercalate " " nameWords

/-- Modelled from the spec's wording for the story namer (spec §4.6):
"tokenize summary on whitespace, drop a fixed stopword set
(case-insensitive), take the first ≤3 remaining tokens, join with spaces".
Tokenizing on whitespace yields the maximal runs of non-whitespace
characters.  Used only to compare the spec's wording with the source. -/
def generateStoryNameSpec (summary : String) : String :=
  let tokens := ((summary.data.splitOnP (fun c => c.isWhitespace)).filter (fun t => !(t.isEmpty))).map String.mk
  let kept := tokens.filter (fun w => !(stopWords.contains (strToLower w)))
  String.intercalate " " (kept.take 3)

/-- A JS value in the `message.content` position: either a string (the
`typeof ... === 'string'` check passes) or something else. -/
inductive JsContent
  | str (s : String)
  | nonString
deriving DecidableEq

/-- The `message` object of a chat-completion choice. -/
structure RespMessage where
  content : JsContent
deriving DecidableEq

/-- One element of `response.choices`; `message` may be absent. -/
structure RespChoice where
  message : Option RespMessage
deriving DecidableEq

/-- The chat-completion response object; `choices` may be absent. -/
structure ChatCompletionResponse where
  choices : Option (List RespChoice)
deriving DecidableEq

/-- The validation portion of `describeImage` (index.js:471-487), from the
point where the vision response is available.  On success it returns the
content; on failure the message of the thrown `Error`. -/
def describeImageValidate (response : Option ChatCompletionResponse) :
    Except String String :=
  match response with
  | none => .error "Unexpected response structure"
  | some resp =>
    match resp.choices with
    | none => .error "Unexpected response structure"
    | some cs =>
      if hlen : 0 < cs.length then
        let choice := cs.get ⟨0, hlen⟩
        match choice.message with
        | none => .error "No valid message found in response"
        | some msg =>
          match msg.content with
          | JsContent.str content =>
            let paragraphs :=
              (jsSplit "\n\n" content).filter (fun p => decide (0 < (jsTrim p).length))
            if paragraphs.length < 5 then
              .error "Generated content has less than 5 paragraphs"
            else
              .ok content
          | JsContent.nonString => .error "No valid message found in response"
      else .error "Unexpected response structure"

/-- The file system as a map from path to mtime in milliseconds
(`fs.statSync(path).mtimeMs`). -/
abbrev FileSys := List (String × Nat)

/-- `fs.unlinkSync` after a successful stat: removes the path. -/
def fsRemove (fs : FileSys) (p : String) : FileSys :=
  fs.filter (fun e => !(e.1 == p))

/-- The `pdfPreviews` map (index.js:24): id to pdf path, insertion order. -/
abbrev PreviewMap := List (String × String)

/-- `pdfPreviews.set(previewId, pdfPath)` (index.js:373): JS `Map.set`
replaces the value when the key exists, otherwise appends. -/
def previewSet (m : PreviewMap) (id p : String) : PreviewMap :=
  if (List.lookup id m).isSome then
    m.map (fun e => if e.1 == id then (id, p) else e)
  else
    m ++ [(id, p)]

/-- `pdfPreviews.get(previewId)` as used by GET /api/pdf-preview/:previewId
(index.js:385-394): `none` corresponds to the 404 response, never a throw. -/
def previewGet (m : PreviewMap) (id : String) : Option String :=
  List.lookup id m

/-- `cleanupPreviews` (index.js:397-405).  The sweep iterates the map in
insertion order; `fs.statSync` on a missing path throws, and the function
has no try/catch, so the iteration stops there: already-performed
deletions persist, the throwing entry and all later entries stay.  Returns
the resulting map, the resulting file system, and the uncaught error if
one was thrown.  JS computes `now - mtimeMs` with number arithmetic; when
`mtimeMs > now` the difference is negative and the `> 3600000` test is
false, matching truncated `Nat` subtraction here. -/
def cleanupPreviews (now : Nat) :
    PreviewMap → FileSys → PreviewMap × FileSys × Option String
  | [], fs => ([], fs, none)
  | (id, p) :: rest, fs =>
    match List.lookup p fs with
    | none =>
      ((id, p) :: rest, fs,
        some ("ENOENT: no such file or directory, stat " ++ p))
    | some mtimeMs =>
      if 3600000 < now - mtimeMs then
        -- fs.unlinkSync(path); pdfPreviews.delete(id)
        cleanupPreviews now rest (fsRemove fs p)
      else
        let r := cleanupPreviews now rest fs
        ((id, p) :: r.1, r.2.1, r.2.2)

/-- A piece of the assembled PDF document, in emission order. -/
inductive PdfElem
  | storyTitle (s : String)
  | chapterHeading (s : String)
  | chapterImage
  | paragraph (s : String)
  | imagePlaceholder (s : String)
  | pageBreak
deriving DecidableEq

/-- A JS object with string-valued fields, as an insertion-ordered
association list (`Object.keys` iterates string keys in insertion order). -/
abbrev ObjMap := List (String × String)

/-- The chapter-key computation used by every assembly pass, e.g.
index.js:252: keys that start with "chapter" and do not end with "Name". -/
def chapterKeysOf (storyData : ObjMap) : List String :=
  (storyData.map Prod.fst).filter
    (fun key => strStartsWith key "chapter" && !(strEndsWith key "Name"))

/-- Chapter loop of POST /api/pdf (index.js:254-282).  `imageUrls?` is the
destructured `imageUrls` field (`none` = absent from the request body);
`fetchImage url` is the outcome of `downloadImageToBuffer` (the buffer is
abstracted to its byte length).  The handler has no try/catch, so reading
`imageUrls[i]` when `imageUrls` is `undefined` throws a TypeError and a
failed download rethrows: both abort the loop, modelled as `.error`.
The `rest = []` test is the `i < chapterKeys.length - 1` check, phrased on
the remaining keys.  A missing name key renders as the string
"undefined" in the template literal. -/
def apiPdfChapterLoop (storyData : ObjMap) (imageUrls? : Option (List String))
    (fetchImage : String → Except String Nat) :
    List String → Nat → Except String (List PdfElem)
  | [], _ => .ok []
  | key :: rest, i =>
    let chapterName := (List.lookup (key ++ "Name") storyData).getD "undefined"
    let chapterContent := (List.lookup key storyData).getD ""
    let headElems := [PdfElem.chapterHeading ("Chapter " ++ toString (i + 1) ++ ": " ++ chapterName)]
    match imageUrls? with
    | none => .error "TypeError: Cannot read properties of undefined"
    | some imageUrls =>
      -- if (imageUrls[i]): out-of-range and empty-string entries are falsy
      let imgStep : Except String (List PdfElem) :=
        if imageUrls.getD i "" ≠ "" then
          match fetchImage (imageUrls.getD i "") with
          | .ok _ => .ok [PdfElem.chapterImage]
          | .error e => .error e
        else .ok []
      match imgStep with
      | .error e => .error e
      | .ok imgElems =>
        let paraElems := (jsSplit "\n\n" chapterContent).map PdfElem.paragraph
        let breakElems := if rest ≠ [] then [PdfElem.pageBreak] else []
        match apiPdfChapterLoop storyData imageUrls? fetchImage rest (i + 1) with
        | .error e => .error e
        | .ok tailElems =>
          .ok (headElems ++ imgElems ++ paraElems ++ breakElems ++ tailElems)

/-- Observable outcome of the POST /api/pdf handler (index.js:228-285). -/
inductive ApiPdfResult
  | badRequest
  | pdf (doc : List PdfElem)
  | jsError (msg : String)
deriving DecidableEq

/-- POST /api/pdf (index.js:228-285): the only validation is
`if (!storyData)`; then the title is emitted and the chapter loop runs. -/
def apiPdfHandler (storyData? : Option ObjMap) (imageUrls? : Option (List String))
    (storyName : String) (fetchImage : String → Except String Nat) : ApiPdfResult :=
  match storyData? with
  | none => ApiPdfResult.badRequest
  | some storyData =>
    match apiPdfChapterLoop storyData imageUrls? fetchImage (chapterKeysOf storyData) 0 with
    | .error msg => ApiPdfResult.jsError msg
    | .ok elems => ApiPdfResult.pdf (PdfElem.storyTitle storyName :: elems)

/-- Chapter loop of POST /api/generate-pdf (index.js:574-628).  The image
block sits in a try/catch: any failure while downloading
(`fetchImage`), the empty-buffer check, or decoding the dimensions
(`decodeDims`, i.e. `sizeOf`) is caught and replaced by the red
"Error loading image" text.  The loop itself is total.  Order per chapter:
heading, body paragraphs, a page break for the image, the image or its
placeholder, then a page break between chapters. -/
def generatePdfChapterLoop (storyData : ObjMap) (imageUrls : List String)
    (fetchImage : String → Except String (List Nat))
    (decodeDims : List Nat → Except String (Nat × Nat)) :
    List String → Nat → List PdfElem
  | [], _ => []
  | key :: rest, i =>
    let chapterName := (List.lookup (key ++ "Name") storyData).getD "undefined"
    let chapterContent := (List.lookup key storyData).getD ""
    let headElems := [PdfElem.chapterHeading ("Chapter " ++ toString (i + 1) ++ ": " ++ chapterName)]
    let paraElems := (jsSplit "\n\n" chapterContent).map PdfElem.paragraph
    let imageUrl := imageUrls.getD i ""
    let imgElems :=
      if imageUrl ≠ "" then
        match fetchImage imageUrl with
        | .error _ => [PdfElem.imagePlaceholder "Error loading image"]
        | .ok buf =>
          if buf.length = 0 then [PdfElem.imagePlaceholder "Error loading image"]
          else
            match decodeDims buf with
            | .error _ => [PdfElem.imagePlaceholder "Error loading image"]
            | .ok _ => [PdfElem.chapterImage]
      else []
    let breakElems := if rest ≠ [] then [PdfElem.pageBreak] else []
    headElems ++ paraElems ++ [PdfElem.pageBreak] ++ imgElems ++ breakElems
      ++ generatePdfChapterLoop storyData imageUrls fetchImage decodeDims rest (i + 1)

/-- Chapter loop of POST /api/generate-pdf-preview (index.js:321-364).  The
image block is also wrapped in try/catch, but the catch only logs: a
failed download or decode adds NOTHING to the document; an empty buffer is
skipped silently by the `imageBuffer.length > 0` guard.  Order per
chapter: heading, body paragraphs, then the image if everything
succeeded. -/
def previewChapterLoop (storyData : ObjMap) (imageUrls : List String)
    (fetchImage : String → Except String (List Nat))
    (decodeDims : List Nat → Except String (Nat × Nat)) :
    List String → Nat → List PdfElem
  | [], _ => []
  | key :: rest, i =>
    let chapterName := (List.lookup (key ++ "Name") storyData).getD "undefined"
    let chapterContent := (List.lookup key storyData).getD ""
    let headElems := [PdfElem.chapterHeading ("Chapter " ++ toString (i + 1) ++ ": " ++ chapterName)]
    let paraElems := (jsSplit "\n\n" chapterContent).map PdfElem.paragraph
    let imageUrl := imageUrls.getD i ""
    let imgElems :=
      if imageUrl ≠ "" then
        match fetchImage imageUrl with
        | .error _ => []
        | .ok buf =>
          if 0 < buf.length then
            match decodeDims buf with
            | .error _ => []
            | .ok _ => [PdfElem.chapterImage]
          else []
      else []
    let breakElems := if rest ≠ [] then [PdfElem.pageBreak] else []
    headElems ++ paraElems ++ imgElems ++ breakElems
      ++ previewChapterLoop storyData imageUrls fetchImage decodeDims rest (i + 1)

/-- Recognizes the chapter-heading elements of an assembled document. -/
def isChapterHeading : PdfElem → Bool
  | PdfElem.chapterHeading _ => true
  | _ => false

/-- The `publication` object of a flipbook status response. -/
structure Publication where
  state : String
  hashId : String
deriving DecidableEq

/-- Outcome of the flipbook polling loop: either the constructed view URL
(the loop broke out with `flipbookUrl` set) or the local timeout decision
(`flipbookUrl` still null after the loop, leading to
`throw new Error('Flipbook processing timed out')`). -/
inductive FlipOutcome
  | success (flipbookUrl : String)
  | timedOut
deriving DecidableEq

/-- The polling loop shared verbatim by POST /api/create-flipbook-from-pdf
(index.js:693-710) and POST /api/create-flipbook-from-url
(index.js:775-795): `while (!flipbookUrl && attempts < 10)`, each
iteration first waits 5000 ms, then fetches the status; state "Ready"
breaks with the view URL, otherwise `attempts++`.  `pub n` is the
publication returned by the n-th status GET.  Returns the outcome, the
number of status polls issued, and the total milliseconds spent waiting.
The first `Nat` is fuel with invariant `fuel = 10 - attempts`, so the
fuel-zero branch is exactly the loop exit at `attempts = 10`. -/
def flipbookPollLoopAux (pub : Nat → Publication) :
    Nat → Nat → FlipOutcome × Nat × Nat
  | 0, _ => (.timedOut, 0, 0)
  | fuel + 1, attempts =>
    if attempts < 10 then
      let p := pub attempts
      if p.state = "Ready" then
        (.success ("https://online.flippingbook.com/view/" ++ p.hashId ++ "/"),
          1, 5000)
      else
        let r := flipbookPollLoopAux pub fuel (attempts + 1)
        (r.1, r.2.1 + 1, r.2.2 + 5000)
    else (.timedOut, 0, 0)

/-- Entry point of the polling loop: `attempts` starts at 0. -/
def flipbookPollLoop (pub : Nat → Publication) : FlipOutcome × Nat × Nat :=
  flipbookPollLoopAux pub 10 0

/-- Environment of one POST /api/create-flipbook-from-url run:
the outcome of the preview-PDF download, the outcome of the create call
(`none` inside `.ok` = response without an `id` field), the publication
returned by each status poll, and `Date.now()` when the temp file name is
built. -/
structure FlipbookEnv where
  download : Except HttpFailure Nat
  createId : Except HttpFailure (Option String)
  pollPub : Nat → Publication
  nowMs : Nat

/-- The HTTP response the handler sends, if any. -/
inductive SentResponse
  | badRequest (msg : String)
  | okUrl (flipbookUrl : String)
  | serverError (details : String)
deriving DecidableEq

/-- Observable result of a POST /api/create-flipbook-from-url run:
the response sent (if any), an exception escaping the handler after the
response, and the temp files existing once the handler is done. -/
structure UrlHandlerResult where
  sent : Option SentResponse
  thrown : Option String
  files : List String
deriving DecidableEq

/-- The local bindings visible inside the `finally` block of
POST /api/create-flipbook-from-url (index.js:815-821): the handler
parameters and the destructured `previewUrl` (index.js:739).
`tempFilePath` is NOT among them: it is declared with `const` inside the
`try` block (index.js:751) and JS block scoping ends it at the closing
brace of that block. -/
def urlHandlerFinallyScope : List String := ["req", "res", "previewUrl"]

/-- POST /api/create-flipbook-from-url (index.js:738-821).  The try block
downloads the preview PDF, writes it to a temp file, uploads it and polls;
the catch block answers 500 with `error.message` as `details`; the finally
block then evaluates `fs.existsSync(tempFilePath)` — but `tempFilePath`
is out of scope there, so the reference throws a ReferenceError on every
path and the unlink is never reached. -/
def createFlipbookFromUrl (previewUrl : String) (env : FlipbookEnv)
    (files : List String) : UrlHandlerResult :=
  if previewUrl = "" then
    { sent := some (.badRequest "Preview URL is required"),
      thrown := none, files := files }
  else
    -- try/catch: the response finally chosen, and the temp files created
    let tryStep : Option SentResponse × List String :=
      match env.download with
      | .error e => (some (.serverError e.message), files)
      | .ok _ =>
        let tempFileName := "temp-" ++ toString env.nowMs ++ ".pdf"
        let files1 := tempFileName :: files
        match env.createId with
        | .error e => (some (.serverError e.message), files1)
        | .ok none =>
          (some (.serverError "Invalid or unexpected response from FlippingBook API"), files1)
        | .ok (some _) =>
          match (flipbookPollLoop env.pollPub).1 with
          | .success u => (some (.okUrl u), files1)
          | .timedOut =>
            (some (.serverError "Flipbook processing timed out"), files1)
    if "tempFilePath" ∈ urlHandlerFinallyScope then
      -- unreachable: the name the finally block uses is not in scope, so
      -- the cleanup the source intended can never run.
      { sent := tryStep.1, thrown := none, files := tryStep.2 }
    else
      { sent := tryStep.1,
        thrown := some "ReferenceError: tempFilePath is not defined",
        files := tryStep.2 }

/-- POST /api/describe-image (index.js:494-510), abstracted over the
outcome of `describeImage`.  `file?` is the multer upload (`none` = no
file, answered 400 before any temp file exists); the `finally` block
unconditionally unlinks the uploaded file, so it is removed on the
success and the failure path alike.  Returns the response and the
remaining uploaded files. -/
def describeImageHandler (file? : Option String)
    (describeResult : Except String String) (files : List String) :
    SentResponse × List String :=
  match file? with
  | none => (.badRequest "No image uploaded", files)
  | some imageFilePath =>
    let resp :=
      match describeResult with
      | .ok description => SentResponse.okUrl description
      | .error _ => SentResponse.serverError "Internal Server Error"
    (resp, files.filter (fun f => !(f == imageFilePath)))

/-- The ways the image block of POST /api/generate-pdf can fail, all of
them caught by its catch (index.js:617-620) and replaced by the
placeholder: the download throws; the downloaded buffer is empty (the
explicit throw of 'Image buffer is empty'); or `sizeOf` fails to decode
the buffer's dimensions. -/
def imageStepFails (fetchImage : String → Except String (List Nat))
    (decodeDims : List Nat → Except String (Nat × Nat)) (url : String) : Prop :=
  (∃ e, fetchImage url = .error e)
  ∨ (∃ buf, fetchImage url = .ok buf ∧ buf.length = 0)
  ∨ (∃ buf e, fetchImage url = .ok buf ∧ buf.length ≠ 0 ∧ decodeDims buf = .error e)

/-- Whether the sweep's retention test fires for a store entry, measured
against a file-system snapshot: the entry's backing file exists there and
its mtime lies more than 3600000 ms before `now`. -/
def entryExpired (now : Nat) (fs : FileSys) (e : String × String) : Bool :=
  match List.lookup e.2 fs with
  | some mtimeMs => decide (3600000 < now - mtimeMs)
  | none => false

/-! Helper lemmas. -/

/-- The retry loop issues at most `fuel` calls. -/
theorem makeRequestWithRetryAux_calls_le {α : Type} (op : Nat → Except HttpFailure α)
    (maxRetries : Nat) : ∀ fuel i, (makeRequestWithRetryAux op maxRetries fuel i).2 ≤ fuel := by
  intro fuel
  induction fuel with
  | zero => intro i; simp [makeRequestWithRetryAux]
  | succ n ih =>
    intro i
    simp only [makeRequestWithRetryAux]
    cases hop : op i with
    | ok v => simp
    | error e =>
      by_cases hlast : i = maxRetries - 1
      · simp [hlast]
      · simp only [if_neg hlast]
        have := ih (i + 1)
        omega

/-- The chat-request helper issues at most `fuel` calls. -/
theorem makeChatRequestAux_calls_le (env : Nat → Except HttpFailure String)
    (parseJson : String → Option StoryData) :
    ∀ fuel retries, (makeChatRequestAux env parseJson fuel retries).2 ≤ fuel := by
  intro fuel
  induction fuel with
  | zero => intro retries; simp [makeChatRequestAux]
  | succ n ih =>
    intro retries
    simp only [makeChatRequestAux]
    cases henv : env retries with
    | ok content => cases hp : parseJson (escapeJsonString content) <;> simp [hp]
    | error e =>
      by_cases hc : e.status = some 429 ∧ retries < MAX_RETRIES
      · simp only [if_pos hc]
        have := ih (retries + 1)
        omega
      · simp [if_neg hc]

/-! Claim C1. -/

/-- Claim C1, counterexample: `makeRequestWithRetry` invoked with max
attempts 3 on an operation that always fails with HTTP 500 (not a 429)
makes 3 calls instead of propagating the failure after a single call: the
non-429 failure IS retried.  It is propagated unchanged only after the
attempts are exhausted. -/
theorem retry_helper_counterexample :
    (makeRequestWithRetry
        (fun _ => (.error ⟨some 500, "Request failed with status code 500"⟩ :
          Except HttpFailure Nat)) 3).2 = 3
    ∧ (makeRequestWithRetry
        (fun _ => (.error ⟨some 500, "Request failed with status code 500"⟩ :
          Except HttpFailure Nat)) 3).2 ≠ 1
    ∧ (makeRequestWithRetry
        (fun _ => (.error ⟨some 500, "Request failed with status code 500"⟩ :
          Except HttpFailure Nat)) 3).1
      = some (.error ⟨some 500, "Request failed with status code 500"⟩) :=
  ⟨rfl, by decide, rfl⟩

/-- Claim C1, amended: both retry wrappers respect their attempt bound
(`makeRequestWithRetry` makes at most `maxRetries` calls, `makeChatRequest`
at most `MAX_RETRIES + 1`), and `makeChatRequest` propagates a non-429
failure unchanged after a single call; but `makeRequestWithRetry` retries
every failure, not only 429s (see the counterexample). -/
theorem retry_helper_amended :
    (∀ (α : Type) (op : Nat → Except HttpFailure α) (maxRetries : Nat),
        (makeRequestWithRetry op maxRetries).2 ≤ maxRetries)
    ∧ (∀ (env : Nat → Except HttpFailure String)
          (parseJson : String → Option StoryData) (e : HttpFailure),
        env 0 = .error e → e.status ≠ some 429 →
        makeChatRequest env parseJson = (.error (.upstream e), 1))
    ∧ (∀ (env : Nat → Except HttpFailure String)
          (parseJson : String → Option StoryData),
        (makeChatRequest env parseJson).2 ≤ MAX_RETRIES + 1) := by
  refine ⟨?_, ?_, ?_⟩
  · intro α op maxRetries
    exact makeRequestWithRetryAux_calls_le op maxRetries maxRetries 0
  · intro env parseJson e henv hstatus
    have hcond : ¬ (e.status = some 429 ∧ 0 < MAX_RETRIES) := fun h => hstatus h.1
    simp only [makeChatRequest, makeChatRequestAux, henv, if_neg hcond]
  · intro env parseJson
    exact makeChatRequestAux_calls_le env parseJson (MAX_RETRIES + 1) 0

/-- Claim C1, witness for the amended theorem at concrete inputs. -/
theorem retry_helper_amended_witness :
    (makeRequestWithRetry
        (fun _ => (.error ⟨some 502, "Bad Gateway"⟩ : Except HttpFailure Nat)) 3).2 ≤ 3
    ∧ makeChatRequest (fun _ => .error ⟨some 418, "teapot"⟩) (fun _ => none)
        = (.error (.upstream ⟨some 418, "teapot"⟩), 1)
    ∧ (makeChatRequest (fun _ => .error ⟨some 418, "teapot"⟩) (fun _ => none)).2
        ≤ MAX_RETRIES + 1 :=
  ⟨retry_helper_amended.1 Nat _ 3,
   retry_helper_amended.2.1 _ _ ⟨some 418, "teapot"⟩ rfl (by decide),
   retry_helper_amended.2.2 _ _⟩

/-! Claim C3. -/

/-- Claim C3, counterexample: when the (sanitized) reply still fails to
parse, `makeChatRequest` throws `new Error('Failed to parse JSON response')`
— a fixed message.  The offending raw content ("raw-content-xyz" here) is
only written to the console and is NOT retained in the error detail: it
does not occur in the error's message (`splitOn` finds no occurrence, so it
returns the one-element list). -/
theorem chat_parse_error_counterexample :
    makeChatRequest (fun _ => .ok "raw-content-xyz") (fun _ => none)
      = (.error (.parseFailure "Failed to parse JSON response"), 1)
    ∧ ¬ List.IsInfix ("raw-content-xyz").data ("Failed to parse JSON response").data :=
  ⟨rfl, by decide⟩

/-- Claim C3, amended: control characters are stripped from the raw text
before JSON parsing, and a reply that still fails to parse makes the
operation fail — after a single upstream call, with no retry — with a
fixed-message error that is distinct from every upstream-call failure; the
offending raw content is logged but not retained in the error itself. -/
theorem chat_parse_error_amended :
    (∀ (s : String), ∀ c ∈ (escapeJsonString s).data, isJsControlChar c = false)
    ∧ (∀ (env : Nat → Except HttpFailure String)
          (parseJson : String → Option StoryData) (content : String),
        env 0 = .ok content →
        parseJson (escapeJsonString content) = none →
        makeChatRequest env parseJson
          = (.error (.parseFailure "Failed to parse JSON response"), 1))
    ∧ (∀ (m : String) (e : HttpFailure),
        ChatErr.parseFailure m ≠ ChatErr.upstream e) := by
  refine ⟨?_, ?_, ?_⟩
  · intro s c hc
    have h2 : c ∈ s.data ∧ isJsControlChar c = false := by
      simpa [escapeJsonString] using hc
    exact h2.2
  · intro env parseJson content henv hparse
    simp [makeChatRequest, MAX_RETRIES, makeChatRequestAux, henv, hparse]
  · intro m e h
    cases h

/-- Claim C3, witness for the amended theorem at concrete inputs. -/
theorem chat_parse_error_amended_witness :
    (∀ c ∈ (escapeJsonString "ab\u0001c").data, isJsControlChar c = false)
    ∧ makeChatRequest (fun _ => .ok "oops not json") (fun _ => none)
      = (.error (.parseFailure "Failed to parse JSON response"), 1)
    ∧ ChatErr.parseFailure "Failed to parse JSON response"
        ≠ ChatErr.upstream ⟨some 500, "boom"⟩ :=
  ⟨chat_parse_error_amended.1 "ab\u0001c",
   chat_parse_error_amended.2.1 _ _ "oops not json" rfl rfl,
   chat_parse_error_amended.2.2 _ _⟩

/-! Claim C6. -/

/-- Claim C6, counterexample: `generateStoryName` does NOT tokenize on
whitespace — it splits on the single space character only
(`summary.split(' ')`).  On an input containing a newline it keeps the
stopword "The" glued to "quick" (and keeps it, since "the\nquick" is not in
the stopword list), diverging from the whitespace-tokenizing reading of the
claim (`generateStoryNameSpec`). -/
theorem story_name_counterexample :
    generateStoryName "The\nquick brown fox is fast" = "The\nquick brown fox"
    ∧ generateStoryNameSpec "The\nquick brown fox is fast" = "quick brown fox"
    ∧ generateStoryName "The\nquick brown fox is fast"
        ≠ generateStoryNameSpec "The\nquick brown fox is fast" := by
  refine ⟨by decide, by decide, by decide⟩

/-- Claim C6, amended: `generateStoryName` is a deterministic pure function
that tokenizes its input on the single space character (not on general
whitespace), drops the fixed stopword set case-insensitively, takes the
first at most 3 remaining tokens (the `Math.min` in the slice bound is
redundant), and joins them with single spaces; empty input yields empty
output with no special-case error, and the claim's concrete example holds. -/
theorem story_name_amended :
    (∀ summary : String,
        generateStoryName summary
          = String.intercalate " "
              (((jsSplit " " summary).filter
                  (fun word => !(stopWords.contains (strToLower word)))).take 3))
    ∧ generateStoryName "" = ""
    ∧ generateStoryName "The quick brown fox is fast" = "quick brown fox" := by
  refine ⟨?_, by decide, by decide⟩
  intro summary
  have htake : ∀ (l : List String), l.take (min l.length 3) = l.take 3 := by
    intro l
    rcases Nat.le_total l.length 3 with h | h
    · rw [Nat.min_eq_left h, List.take_length, List.take_of_length_le h]
    · rw [Nat.min_eq_right h]
  simp only [generateStoryName, htake]

/-! Claim C2. -/

/-- When no poll from `attempts` on returns "Ready", the loop times out
after the remaining `10 - attempts` polls, 5000 ms before each. -/
theorem flipbookPollLoopAux_timeout (pub : Nat → Publication) :
    ∀ fuel a, 10 - a ≤ fuel →
    (∀ i, a ≤ i → i < 10 → (pub i).state ≠ "Ready") →
    flipbookPollLoopAux pub fuel a = (.timedOut, 10 - a, 5000 * (10 - a)) := by
  intro fuel
  induction fuel with
  | zero =>
    intro a hfuel _
    have h0 : 10 - a = 0 := by omega
    simp [flipbookPollLoopAux, h0]
  | succ n ih =>
    intro a hfuel hnr
    simp only [flipbookPollLoopAux]
    by_cases ha : a < 10
    · rw [if_pos ha, if_neg (hnr a (Nat.le_refl a) ha)]
      rw [ih (a + 1) (by omega) (fun i h1 h2 => hnr i (by omega) h2)]
      refine Prod.ext rfl (Prod.ext ?_ ?_) <;> simp <;> omega
    · have h0 : 10 - a = 0 := by omega
      simp [if_neg ha, h0]

/-- When poll `i` is the first to return "Ready", the loop started at
`attempts = a ≤ i` succeeds right after that poll: `i + 1 - a` polls,
5000 ms before each, and no further polls. -/
theorem flipbookPollLoopAux_success (pub : Nat → Publication) :
    ∀ fuel a i, a ≤ i → i < 10 →
    (∀ j, a ≤ j → j < i → (pub j).state ≠ "Ready") →
    (pub i).state = "Ready" → i + 1 - a ≤ fuel →
    flipbookPollLoopAux pub fuel a
      = (.success ("https://online.flippingbook.com/view/" ++ (pub i).hashId ++ "/"),
          i + 1 - a, 5000 * (i + 1 - a)) := by
  intro fuel
  induction fuel with
  | zero => intro a i hai _ _ _ hfuel; omega
  | succ n ih =>
    intro a i hai hi10 hbefore hready hfuel
    have ha : a < 10 := by omega
    simp only [flipbookPollLoopAux, if_pos ha]
    by_cases hEq : a = i
    · subst hEq
      rw [if_pos hready]
      have h1 : a + 1 - a = 1 := by omega
      simp [h1]
    · rw [if_neg (hbefore a (Nat.le_refl a) (by omega))]
      rw [ih (a + 1) i (by omega) hi10 (fun j h1 h2 => hbefore j (by omega) h2) hready (by omega)]
      refine Prod.ext rfl (Prod.ext ?_ ?_) <;> simp <;> omega

/-- Claim C2: in a run where no status poll returns state "Ready", the
polling loop of the flipbook publisher gives up locally — the `timedOut`
outcome, mapped to `throw new Error('Flipbook processing timed out')`,
distinct from an upstream failure — after exactly 10 unsuccessful polls,
each preceded by a 5000 ms wait (50000 ms waited in total); and in a run
where poll `i` is the first to return "Ready", it succeeds with the view
URL built from the publication's hash id immediately after that poll,
having issued exactly `i + 1` polls and none after it. -/
theorem flipbook_polling_timeout_and_success (pub : Nat → Publication) :
    ((∀ i, i < 10 → (pub i).state ≠ "Ready") →
      flipbookPollLoop pub = (.timedOut, 10, 50000))
    ∧ (∀ i, i < 10 → (∀ j, j < i → (pub j).state ≠ "Ready") →
        (pub i).state = "Ready" →
        flipbookPollLoop pub
          = (.success ("https://online.flippingbook.com/view/" ++ (pub i).hashId ++ "/"),
              i + 1, 5000 * (i + 1))) := by
  constructor
  · intro hnr
    have := flipbookPollLoopAux_timeout pub 10 0 (by omega)
      (fun i _ h2 => hnr i h2)
    simpa using this
  · intro i hi10 hbefore hready
    have := flipbookPollLoopAux_success pub 10 0 i (Nat.zero_le i) hi10
      (fun j _ h2 => hbefore j h2) hready (by omega)
    simpa using this

/-- Claim C2, witness: a run that never becomes ready times out after 10
polls and 50 s of waiting; a run that becomes ready on the fourth poll
(index 3) succeeds with the constructed URL after exactly 4 polls. -/
theorem flipbook_polling_witness :
    flipbookPollLoop (fun _ => { state := "Processing", hashId := "h7" })
      = (.timedOut, 10, 50000)
    ∧ flipbookPollLoop (fun i =>
        if i = 3 then { state := "Ready", hashId := "h7" }
        else { state := "Processing", hashId := "h7" })
      = (.success "https://online.flippingbook.com/view/h7/", 4, 20000) := by
  constructor
  · exact (flipbook_polling_timeout_and_success _).1 (by decide)
  · have h := (flipbook_polling_timeout_and_success (fun i =>
        if i = 3 then { state := "Ready", hashId := "h7" }
        else { state := "Processing", hashId := "h7" })).2 3 (by decide)
      (by decide) (by decide)
    simpa using h

/-! Claim C5. -/

/-- Claim C5: for a reply whose shape is valid (a first choice with a
string message body), `describeImage` fails exactly when splitting the
content on blank-line boundaries yields fewer than 5 non-empty paragraphs,
with the dedicated "content too short" error; and that error is
distinguishable from the "no valid message" (malformed shape) and
"unexpected structure" (no response / no choices) errors, each of which is
also exhibited. -/
theorem describe_image_short_content (content : String) (rest : List RespChoice) :
    (((jsSplit "\n\n" content).filter (fun p => decide (0 < (jsTrim p).length))).length < 5 →
      describeImageValidate
          (some ⟨some (⟨some ⟨JsContent.str content⟩⟩ :: rest)⟩)
        = .error "Generated content has less than 5 paragraphs")
    ∧ (5 ≤ ((jsSplit "\n\n" content).filter (fun p => decide (0 < (jsTrim p).length))).length →
      describeImageValidate
          (some ⟨some (⟨some ⟨JsContent.str content⟩⟩ :: rest)⟩)
        = .ok content)
    ∧ describeImageValidate none = .error "Unexpected response structure"
    ∧ describeImageValidate (some ⟨some (⟨none⟩ :: rest)⟩)
        = .error "No valid message found in response"
    ∧ ("Generated content has less than 5 paragraphs" : String)
        ≠ "No valid message found in response"
    ∧ ("Generated content has less than 5 paragraphs" : String)
        ≠ "Unexpected response structure" := by
  refine ⟨?_, ?_, rfl, by simp [describeImageValidate], by decide, by decide⟩
  · intro h
    simp [describeImageValidate, h]
  · intro h
    simp [describeImageValidate, Nat.not_lt.mpr h]

/-- Claim C5, witness: a two-paragraph reply fails with the "content too
short" error; a five-paragraph reply is returned unchanged. -/
theorem describe_image_short_content_witness :
    describeImageValidate
        (some ⟨some [⟨some ⟨JsContent.str "p1\n\np2"⟩⟩]⟩)
      = .error "Generated content has less than 5 paragraphs"
    ∧ describeImageValidate
        (some ⟨some [⟨some ⟨JsContent.str "p1\n\np2\n\np3\n\np4\n\np5"⟩⟩]⟩)
      = .ok "p1\n\np2\n\np3\n\np4\n\np5" :=
  ⟨(describe_image_short_content "p1\n\np2" []).1 (by decide),
   (describe_image_short_content "p1\n\np2\n\np3\n\np4\n\np5" []).2.1 (by decide)⟩

/-! Preview-store helper lemmas. -/

/-- Lookup misses a list none of whose keys match. -/
theorem lookup_none_of_keys_ne {β : Type} (a : String) :
    ∀ (l : List (String × β)), (∀ e ∈ l, e.1 ≠ a) → List.lookup a l = none := by
  intro l
  induction l with
  | nil => intro _; rfl
  | cons e t ih =>
    intro h
    have hne : e.1 ≠ a := h e (List.mem_cons_self e t)
    calc List.lookup a (e :: t)
        = List.lookup a t := by
          cases e with
          | mk k v => simp [List.lookup, beq_eq_false_iff_ne.mpr (Ne.symm hne)]
      _ = none := ih (fun x hx => h x (List.mem_cons_of_mem e hx))

/-- Lookup skips an appended prefix none of whose keys match. -/
theorem lookup_append_of_keys_ne {β : Type} (a : String) :
    ∀ (l1 l2 : List (String × β)), (∀ e ∈ l1, e.1 ≠ a) →
    List.lookup a (l1 ++ l2) = List.lookup a l2 := by
  intro l1
  induction l1 with
  | nil => intro l2 _; rfl
  | cons e t ih =>
    intro l2 h
    have hne : e.1 ≠ a := h e (List.mem_cons_self e t)
    cases e with
    | mk k v =>
      simp only [List.cons_append, List.lookup,
        beq_eq_false_iff_ne.mpr (Ne.symm hne)]
      exact ih l2 (fun x hx => h x (List.mem_cons_of_mem _ hx))

/-- After `fsRemove fs p`, the path `p` is gone. -/
theorem lookup_fsRemove_self (p : String) :
    ∀ fs : FileSys, List.lookup p (fsRemove fs p) = none := by
  intro fs
  induction fs with
  | nil => rfl
  | cons e t ih =>
    cases e with
    | mk q m =>
      by_cases hq : q = p
      · subst hq
        have h1 : fsRemove ((q, m) :: t) q = fsRemove t q := by
          simp [fsRemove, List.filter_cons]
        rw [h1]
        exact ih
      · have h1 : fsRemove ((q, m) :: t) p = (q, m) :: fsRemove t p := by
          simp [fsRemove, List.filter_cons, beq_eq_false_iff_ne.mpr hq]
        rw [h1, List.lookup_cons]
        simp only [beq_eq_false_iff_ne.mpr (fun h => hq h.symm)]
        exact ih

/-- `fsRemove fs p` leaves every other path's entry unchanged. -/
theorem lookup_fsRemove_ne (p x : String) (hx : x ≠ p) :
    ∀ fs : FileSys, List.lookup x (fsRemove fs p) = List.lookup x fs := by
  intro fs
  induction fs with
  | nil => rfl
  | cons e t ih =>
    cases e with
    | mk q m =>
      by_cases hq : q = p
      · subst hq
        have h1 : fsRemove ((q, m) :: t) q = fsRemove t q := by
          simp [fsRemove, List.filter_cons]
        rw [h1, ih, List.lookup_cons]
        simp [beq_eq_false_iff_ne.mpr hx]
      · have h1 : fsRemove ((q, m) :: t) p = (q, m) :: fsRemove t p := by
          simp [fsRemove, List.filter_cons, beq_eq_false_iff_ne.mpr hq]
        rw [h1, List.lookup_cons, List.lookup_cons, ih]

/-- A sweep over entries whose backing files all exist (with pairwise
distinct paths) throws no error. -/
theorem cleanup_backed_err_none (now : Nat) :
    ∀ (entries : PreviewMap) (fs : FileSys),
      (∀ e ∈ entries, (List.lookup e.2 fs).isSome) →
      ((entries.map Prod.snd).Nodup) →
      (cleanupPreviews now entries fs).2.2 = none := by
  intro entries
  induction entries with
  | nil => intro fs _ _; rfl
  | cons e rest ih =>
    intro fs hback hnd
    cases e with
    | mk id p =>
      obtain ⟨mq, hmq⟩ :=
        Option.isSome_iff_exists.mp (hback (id, p) (List.mem_cons_self _ _))
      have hndrest : (rest.map Prod.snd).Nodup :=
        (List.nodup_cons.mp (by simpa using hnd)).2
      have hpnotin : p ∉ rest.map Prod.snd :=
        (List.nodup_cons.mp (by simpa using hnd)).1
      simp only [cleanupPreviews, hmq]
      by_cases hexp : 3600000 < now - mq
      · rw [if_pos hexp]
        apply ih (fsRemove fs p)
        · intro e' he'
          have hne : e'.2 ≠ p :=
            fun hc => hpnotin (hc ▸ List.mem_map_of_mem Prod.snd he')
          rw [lookup_fsRemove_ne p e'.2 hne]
          exact hback e' (List.mem_cons_of_mem _ he')
        · exact hndrest
      · rw [if_neg hexp]
        exact ih fs (fun e' he' => hback e' (List.mem_cons_of_mem _ he')) hndrest

/-- Behaviour of a sweep over a well-backed store with a freshly appended
entry `(idNew, p)` whose backing file has mtime `m`: the sweep never
throws; when the file is older than the retention window the entry and the
file are gone afterwards; otherwise the entry survives with its path. -/
theorem cleanup_append_fresh (now : Nat) (idNew p : String) (m : Nat) :
    ∀ (entries : PreviewMap) (fs : FileSys),
      (∀ e ∈ entries, (List.lookup e.2 fs).isSome) →
      ((entries.map Prod.snd).Nodup) →
      (∀ e ∈ entries, e.2 ≠ p) →
      (∀ e ∈ entries, e.1 ≠ idNew) →
      List.lookup p fs = some m →
      (cleanupPreviews now (entries ++ [(idNew, p)]) fs).2.2 = none
      ∧ (3600000 < now - m →
          List.lookup idNew (cleanupPreviews now (entries ++ [(idNew, p)]) fs).1 = none
          ∧ List.lookup p (cleanupPreviews now (entries ++ [(idNew, p)]) fs).2.1 = none)
      ∧ (¬ 3600000 < now - m →
          List.lookup idNew (cleanupPreviews now (entries ++ [(idNew, p)]) fs).1 = some p) := by
  intro entries
  induction entries with
  | nil =>
    intro fs _ _ _ _ hm
    simp only [List.nil_append, cleanupPreviews, hm]
    by_cases hexp : 3600000 < now - m
    · rw [if_pos hexp]
      exact ⟨rfl, fun _ => ⟨rfl, lookup_fsRemove_self p fs⟩, fun hc => absurd hexp hc⟩
    · rw [if_neg hexp]
      refine ⟨rfl, fun hc => absurd hc hexp, fun _ => ?_⟩
      simp [List.lookup]
  | cons e rest ih =>
    intro fs hback hnd hnp hni hm
    cases e with
    | mk i q =>
      obtain ⟨mq, hmq⟩ :=
        Option.isSome_iff_exists.mp (hback (i, q) (List.mem_cons_self _ _))
      have hqp : q ≠ p := hnp (i, q) (List.mem_cons_self _ _)
      have hiNew : i ≠ idNew := hni (i, q) (List.mem_cons_self _ _)
      have hbeq : (idNew == i) = false :=
        beq_eq_false_iff_ne.mpr (fun hc => hiNew hc.symm)
      have hndrest : (rest.map Prod.snd).Nodup :=
        (List.nodup_cons.mp (by simpa using hnd)).2
      have hqnotin : q ∉ rest.map Prod.snd :=
        (List.nodup_cons.mp (by simpa using hnd)).1
      simp only [List.cons_append, cleanupPreviews, hmq]
      by_cases hexp : 3600000 < now - mq
      · rw [if_pos hexp]
        apply ih (fsRemove fs q)
        · intro e' he'
          have hne : e'.2 ≠ q :=
            fun hc => hqnotin (hc ▸ List.mem_map_of_mem Prod.snd he')
          rw [lookup_fsRemove_ne q e'.2 hne]
          exact hback e' (List.mem_cons_of_mem _ he')
        · exact hndrest
        · exact fun e' he' => hnp e' (List.mem_cons_of_mem _ he')
        · exact fun e' he' => hni e' (List.mem_cons_of_mem _ he')
        · rw [lookup_fsRemove_ne q p (fun hc => hqp hc.symm)]
          exact hm
      · rw [if_neg hexp]
        have h := ih fs (fun e' he' => hback e' (List.mem_cons_of_mem _ he')) hndrest
          (fun e' he' => hnp e' (List.mem_cons_of_mem _ he'))
          (fun e' he' => hni e' (List.mem_cons_of_mem _ he')) hm
        refine ⟨h.1, fun hx => ⟨?_, (h.2.1 hx).2⟩, fun hx => ?_⟩
        · show List.lookup idNew
            ((i, q) :: (cleanupPreviews now (rest ++ [(idNew, p)]) fs).1) = none
          rw [List.lookup_cons, hbeq]
          exact (h.2.1 hx).1
        · show List.lookup idNew
            ((i, q) :: (cleanupPreviews now (rest ++ [(idNew, p)]) fs).1) = some p
          rw [List.lookup_cons, hbeq]
          exact h.2.2 hx

/-- The file system only shrinks during a sweep: a path absent before the
sweep is still absent afterwards. -/
theorem cleanup_fs_mono_none (now : Nat) (x : String) :
    ∀ (entries : PreviewMap) (fs : FileSys),
      List.lookup x fs = none →
      List.lookup x (cleanupPreviews now entries fs).2.1 = none := by
  intro entries
  induction entries with
  | nil => intro fs h; exact h
  | cons e rest ih =>
    intro fs h
    cases e with
    | mk i q =>
      cases hq : List.lookup q fs with
      | none =>
        simp only [cleanupPreviews, hq]
        exact h
      | some mt =>
        simp only [cleanupPreviews, hq]
        by_cases hexp : 3600000 < now - mt
        · rw [if_pos hexp]
          apply ih
          have hxq : x ≠ q := by
            intro hc
            rw [hc, hq] at h
            cases h
          rw [lookup_fsRemove_ne q x hxq]
          exact h
        · rw [if_neg hexp]
          exact ih fs h

/-- A sweep over a store that is a well-backed prefix followed by an entry
`(id, p)` whose backing file is missing: the prefix is processed normally
(its expired entries leave the map, and their files leave the disk), then
`fs.statSync p` throws — the ENOENT error escapes unswallowed and the
throwing entry together with every later entry stays in the map
untouched. -/
theorem cleanup_prefix_missing (now : Nat) (id p : String) (rest : PreviewMap) :
    ∀ (entries : PreviewMap) (fs : FileSys),
      (∀ e ∈ entries, (List.lookup e.2 fs).isSome) →
      ((entries.map Prod.snd).Nodup) →
      (∀ e ∈ entries, e.2 ≠ p) →
      List.lookup p fs = none →
      (cleanupPreviews now (entries ++ (id, p) :: rest) fs).1
          = entries.filter (fun e => !(entryExpired now fs e)) ++ (id, p) :: rest
      ∧ (cleanupPreviews now (entries ++ (id, p) :: rest) fs).2.2
          = some ("ENOENT: no such file or directory, stat " ++ p)
      ∧ (∀ e ∈ entries, entryExpired now fs e = true →
          List.lookup e.2 (cleanupPreviews now (entries ++ (id, p) :: rest) fs).2.1
            = none) := by
  intro entries
  induction entries with
  | nil =>
    intro fs _ _ _ hp
    refine ⟨?_, ?_, ?_⟩
    · simp only [List.nil_append, cleanupPreviews, hp]
      rfl
    · simp only [List.nil_append, cleanupPreviews, hp]
    · intro e he
      simp at he
  | cons ent entries ih =>
    intro fs hback hnd hnp hp
    cases ent with
    | mk i q =>
      obtain ⟨mq, hmq⟩ :=
        Option.isSome_iff_exists.mp (hback (i, q) (List.mem_cons_self _ _))
      have hqp : q ≠ p := hnp (i, q) (List.mem_cons_self _ _)
      have hndrest : (entries.map Prod.snd).Nodup :=
        (List.nodup_cons.mp (by simpa using hnd)).2
      have hqnotin : q ∉ entries.map Prod.snd :=
        (List.nodup_cons.mp (by simpa using hnd)).1
      have hexpq : entryExpired now fs (i, q) = decide (3600000 < now - mq) := by
        simp [entryExpired, hmq]
      have hcong : ∀ e ∈ entries,
          entryExpired now (fsRemove fs q) e = entryExpired now fs e := by
        intro e he
        have hne : e.2 ≠ q :=
          fun hc => hqnotin (hc ▸ List.mem_map_of_mem Prod.snd he)
        simp [entryExpired, lookup_fsRemove_ne q e.2 hne]
      simp only [List.cons_append, cleanupPreviews, hmq, List.append_eq]
      by_cases hexp : 3600000 < now - mq
      · rw [if_pos hexp]
        have hIH := ih (fsRemove fs q)
          (fun e he => by
            have hne : e.2 ≠ q :=
              fun hc => hqnotin (hc ▸ List.mem_map_of_mem Prod.snd he)
            rw [lookup_fsRemove_ne q e.2 hne]
            exact hback e (List.mem_cons_of_mem _ he))
          hndrest
          (fun e he => hnp e (List.mem_cons_of_mem _ he))
          (by rw [lookup_fsRemove_ne q p (fun hc => hqp hc.symm)]; exact hp)
        have hexpTrue : entryExpired now fs (i, q) = true := by
          rw [hexpq]
          simpa using hexp
        refine ⟨?_, hIH.2.1, ?_⟩
        · rw [hIH.1, List.filter_cons_of_neg (by simp [hexpTrue])]
          congr 1
          exact List.filter_congr (fun e he => by rw [hcong e he])
        · intro e he hexpired
          rcases List.mem_cons.mp he with heq | he'
          · rw [heq]
            exact cleanup_fs_mono_none now q (entries ++ (id, p) :: rest)
              (fsRemove fs q) (lookup_fsRemove_self q fs)
          · exact hIH.2.2 e he' (by rw [hcong e he']; exact hexpired)
      · rw [if_neg hexp]
        have hIH := ih fs (fun e he => hback e (List.mem_cons_of_mem _ he)) hndrest
          (fun e he => hnp e (List.mem_cons_of_mem _ he)) hp
        have hkept : entryExpired now fs (i, q) = false := by
          rw [hexpq]
          simpa using hexp
        refine ⟨?_, hIH.2.1, ?_⟩
        · show ((i, q) :: (cleanupPreviews now (entries ++ (id, p) :: rest) fs).1) = _
          rw [hIH.1, List.filter_cons_of_pos (by simp [hkept]), List.cons_append]
        · intro e he hexpired
          rcases List.mem_cons.mp he with heq | he'
          · rw [heq, hkept] at hexpired
            cases hexpired
          · show List.lookup e.2
                (cleanupPreviews now (entries ++ (id, p) :: rest) fs).2.1 = none
            exact hIH.2.2 e he' hexpired

/-! Claim C4. -/

/-- Claim C4: on a well-backed preview store (every stored path has a
backing file, paths pairwise distinct — UUID-generated names), after
`put(id, path)` with a fresh id whose file has mtime `m`:
`get(id)` returns the path; a sweep at any time within the retention
window (`now - m ≤ 3600000`) throws nothing and leaves `get(id)` intact;
and a sweep at any time more than one hour past the file's mtime throws
nothing, after which `get(id)` is not-found (the 404 branch, `previewGet`
is total and never throws) and the backing file has been removed. -/
theorem preview_store_retention (entries : PreviewMap) (fs : FileSys)
    (idNew p : String) (m : Nat)
    (hfresh : ∀ e ∈ entries, e.1 ≠ idNew)
    (hback : ∀ e ∈ entries, (List.lookup e.2 fs).isSome)
    (hnd : (entries.map Prod.snd).Nodup)
    (hnp : ∀ e ∈ entries, e.2 ≠ p)
    (hm : List.lookup p fs = some m) :
    previewGet (previewSet entries idNew p) idNew = some p
    ∧ (∀ now, ¬ 3600000 < now - m →
        (cleanupPreviews now (previewSet entries idNew p) fs).2.2 = none
        ∧ previewGet (cleanupPreviews now (previewSet entries idNew p) fs).1 idNew
            = some p)
    ∧ (∀ now, 3600000 < now - m →
        (cleanupPreviews now (previewSet entries idNew p) fs).2.2 = none
        ∧ previewGet (cleanupPreviews now (previewSet entries idNew p) fs).1 idNew
            = none
        ∧ List.lookup p (cleanupPreviews now (previewSet entries idNew p) fs).2.1
            = none) := by
  have hset : previewSet entries idNew p = entries ++ [(idNew, p)] := by
    have h0 : List.lookup idNew entries = none :=
      lookup_none_of_keys_ne idNew entries hfresh
    simp [previewSet, h0]
  rw [hset]
  refine ⟨?_, ?_, ?_⟩
  · show List.lookup idNew (entries ++ [(idNew, p)]) = some p
    rw [lookup_append_of_keys_ne idNew entries [(idNew, p)] hfresh]
    simp [List.lookup]
  · intro now hnow
    have h := cleanup_append_fresh now idNew p m entries fs hback hnd hnp hfresh hm
    exact ⟨h.1, h.2.2 hnow⟩
  · intro now hnow
    have h := cleanup_append_fresh now idNew p m entries fs hback hnd hnp hfresh hm
    exact ⟨h.1, (h.2.1 hnow).1, (h.2.1 hnow).2⟩

/-- Claim C4, witness: a concrete store with one prior entry; the fresh
preview survives a sweep 3600000 ms after its mtime and is gone — entry
and file — after a sweep 7200000 ms past it. -/
theorem preview_store_retention_witness :
    previewGet (previewSet [("id0", "q0.pdf")] "id1" "p1.pdf") "id1" = some "p1.pdf"
    ∧ ((cleanupPreviews 3600050 (previewSet [("id0", "q0.pdf")] "id1" "p1.pdf")
          [("q0.pdf", 100), ("p1.pdf", 50)]).2.2 = none
        ∧ previewGet (cleanupPreviews 3600050
            (previewSet [("id0", "q0.pdf")] "id1" "p1.pdf")
            [("q0.pdf", 100), ("p1.pdf", 50)]).1 "id1" = some "p1.pdf")
    ∧ ((cleanupPreviews 7200000 (previewSet [("id0", "q0.pdf")] "id1" "p1.pdf")
          [("q0.pdf", 100), ("p1.pdf", 50)]).2.2 = none
        ∧ previewGet (cleanupPreviews 7200000
            (previewSet [("id0", "q0.pdf")] "id1" "p1.pdf")
            [("q0.pdf", 100), ("p1.pdf", 50)]).1 "id1" = none
        ∧ List.lookup "p1.pdf" (cleanupPreviews 7200000
            (previewSet [("id0", "q0.pdf")] "id1" "p1.pdf")
            [("q0.pdf", 100), ("p1.pdf", 50)]).2.1 = none) := by
  have h := preview_store_retention [("id0", "q0.pdf")]
    [("q0.pdf", 100), ("p1.pdf", 50)] "id1" "p1.pdf" 50
    (by decide) (by decide) (by decide) (by decide) (by decide)
  exact ⟨h.1, h.2.1 3600050 (by decide), h.2.2 7200000 (by decide)⟩

/-! Claim C9. -/

/-- Claim C9, counterexample: a sweep over a store whose first entry's
backing file is missing does NOT swallow the error — `fs.statSync` throws
ENOENT, the sweep pass aborts, and the remaining entry "idB" (whose file,
mtime 0 at `now = 7200000`, is well past the retention window) is left
completely unprocessed: it stays in the map and its file stays on disk. -/
theorem sweep_missing_file_counterexample :
    cleanupPreviews 7200000 [("idA", "previews/a.pdf"), ("idB", "previews/b.pdf")]
        [("previews/b.pdf", 0)]
      = ([("idA", "previews/a.pdf"), ("idB", "previews/b.pdf")],
          [("previews/b.pdf", 0)],
          some "ENOENT: no such file or directory, stat previews/a.pdf") := rfl

/-- Claim C9, amended: a missing backing file is not handled by the sweep:
whatever prefix of the store precedes the entry whose backing file is
missing, that prefix is processed normally — its expired entries are
deleted from the map and their files from the disk, and those deletions
persist — then `fs.statSync` throws ENOENT at the missing-file entry; the
error escapes `cleanupPreviews` unswallowed, and that entry together with
every later entry is left in the map unprocessed.  Only a sweep over a
store whose entries are all backed (distinct paths) completes without an
error. -/
theorem sweep_missing_file_amended :
    (∀ (now : Nat) (id p : String) (rest : PreviewMap)
        (entries : PreviewMap) (fs : FileSys),
      (∀ e ∈ entries, (List.lookup e.2 fs).isSome) →
      ((entries.map Prod.snd).Nodup) →
      (∀ e ∈ entries, e.2 ≠ p) →
      List.lookup p fs = none →
      (cleanupPreviews now (entries ++ (id, p) :: rest) fs).1
          = entries.filter (fun e => !(entryExpired now fs e)) ++ (id, p) :: rest
      ∧ (cleanupPreviews now (entries ++ (id, p) :: rest) fs).2.2
          = some ("ENOENT: no such file or directory, stat " ++ p)
      ∧ (∀ e ∈ entries, entryExpired now fs e = true →
          List.lookup e.2 (cleanupPreviews now (entries ++ (id, p) :: rest) fs).2.1
            = none))
    ∧ (∀ (now : Nat) (entries : PreviewMap) (fs : FileSys),
        (∀ e ∈ entries, (List.lookup e.2 fs).isSome) →
        (entries.map Prod.snd).Nodup →
        (cleanupPreviews now entries fs).2.2 = none) := by
  constructor
  · intro now id p rest entries fs hback hnd hnp hp
    exact cleanup_prefix_missing now id p rest entries fs hback hnd hnp hp
  · intro now entries fs hback hnd
    exact cleanup_backed_err_none now entries fs hback hnd

/-- Claim C9, witness for the amended theorem: the sweep first processes
the expired entry "idOld" (it disappears from the map and its file from
the disk), then aborts with ENOENT at "idC", whose file is missing,
leaving "idC" and the later (itself expired) "idD" untouched; and a sweep
over a fully backed store reports no error. -/
theorem sweep_missing_file_amended_witness :
    (cleanupPreviews 7200000
        [("idOld", "previews/old.pdf"), ("idC", "previews/c.pdf"),
          ("idD", "previews/d.pdf")]
        [("previews/old.pdf", 0), ("previews/d.pdf", 10)]).1
      = [("idC", "previews/c.pdf"), ("idD", "previews/d.pdf")]
    ∧ (cleanupPreviews 7200000
        [("idOld", "previews/old.pdf"), ("idC", "previews/c.pdf"),
          ("idD", "previews/d.pdf")]
        [("previews/old.pdf", 0), ("previews/d.pdf", 10)]).2.2
      = some "ENOENT: no such file or directory, stat previews/c.pdf"
    ∧ List.lookup "previews/old.pdf" (cleanupPreviews 7200000
        [("idOld", "previews/old.pdf"), ("idC", "previews/c.pdf"),
          ("idD", "previews/d.pdf")]
        [("previews/old.pdf", 0), ("previews/d.pdf", 10)]).2.1 = none
    ∧ (cleanupPreviews 7200000 [("idE", "previews/e.pdf")]
        [("previews/e.pdf", 10)]).2.2 = none := by
  have h := sweep_missing_file_amended.1 7200000 "idC" "previews/c.pdf"
    [("idD", "previews/d.pdf")] [("idOld", "previews/old.pdf")]
    [("previews/old.pdf", 0), ("previews/d.pdf", 10)]
    (by decide) (by decide) (by decide) rfl
  simp only [List.singleton_append] at h
  refine ⟨?_, ?_, ?_, ?_⟩
  · rw [h.1]
    decide
  · rw [h.2.1]
    rfl
  · exact h.2.2 ("idOld", "previews/old.pdf") (by decide) (by decide)
  · exact sweep_missing_file_amended.2 7200000 [("idE", "previews/e.pdf")]
      [("previews/e.pdf", 10)] (by decide) (by decide)

/-! Claim C7. -/

/-- Claim C7, code bug: on a POST /api/create-flipbook-from-url run that
gets past the download (here: download ok, create ok, polls never ready),
the temp PDF is written but the `finally` block refers to `tempFilePath`,
a `const` scoped to the try block, so it throws
`ReferenceError: tempFilePath is not defined` instead of deleting the
file: the temp file survives the handler on every such path, contradicting
the claim that it is deleted on every exit path.  The other upload
handlers do clean up: /api/describe-image unlinks its uploaded file in its
own `finally` on success and failure alike. -/
theorem flipbook_url_temp_file_leak :
    createFlipbookFromUrl "http://localhost:4000/api/pdf-preview/abc"
        { download := .ok 1, createId := .ok (some "fb1"),
          pollPub := fun _ => { state := "Processing", hashId := "h" },
          nowMs := 1712 }
        []
      = { sent := some (.serverError "Flipbook processing timed out"),
          thrown := some "ReferenceError: tempFilePath is not defined",
          files := ["temp-1712.pdf"] }
    ∧ (∀ (fp : String) (res : Except String String) (files : List String),
        fp ∉ (describeImageHandler (some fp) res files).2) := by
  constructor
  · rfl
  · intro fp res files
    cases res with
    | ok d => simp [describeImageHandler, List.mem_filter]
    | error e => simp [describeImageHandler, List.mem_filter]

/-! Claim C8 helper lemmas. -/

/-- Body paragraphs contain no chapter heading. -/
theorem filter_heading_map_paragraph (l : List String) :
    (l.map PdfElem.paragraph).filter isChapterHeading = [] := by
  induction l with
  | nil => rfl
  | cons a t ih => simp [isChapterHeading, ih]

/-- The image block of the /api/generate-pdf loop contains no chapter
heading, whichever way the download and decode go. -/
theorem imgElems_filter_heading (fetchImage : String → Except String (List Nat))
    (decodeDims : List Nat → Except String (Nat × Nat)) (imageUrl : String) :
    List.filter isChapterHeading
      (if imageUrl ≠ "" then
        match fetchImage imageUrl with
        | .error _ => [PdfElem.imagePlaceholder "Error loading image"]
        | .ok buf =>
          if buf.length = 0 then [PdfElem.imagePlaceholder "Error loading image"]
          else
            match decodeDims buf with
            | .error _ => [PdfElem.imagePlaceholder "Error loading image"]
            | .ok _ => [PdfElem.chapterImage]
      else []) = [] := by
  split
  all_goals try rfl
  all_goals split
  all_goals try rfl
  all_goals split
  all_goals try rfl
  all_goals split
  all_goals rfl

/-- An inter-chapter break contains no chapter heading. -/
theorem breakElems_filter_heading (c : Prop) [Decidable c] :
    List.filter isChapterHeading (if c then [PdfElem.pageBreak] else []) = [] := by
  split <;> rfl

/-- /api/generate-pdf assembles one heading per chapter key: no image
failure removes a chapter (the loop is total and every chapter's heading
is emitted). -/
theorem generatePdf_heading_count (storyData : ObjMap) (imageUrls : List String)
    (fetchImage : String → Except String (List Nat))
    (decodeDims : List Nat → Except String (Nat × Nat)) :
    ∀ (keys : List String) (i : Nat),
      ((generatePdfChapterLoop storyData imageUrls fetchImage decodeDims keys i).filter
          isChapterHeading).length = keys.length := by
  intro keys
  induction keys with
  | nil => intro i; rfl
  | cons k rest ih =>
    intro i
    simp only [generatePdfChapterLoop, List.filter_append, List.length_append,
      ih (i + 1), filter_heading_map_paragraph, imgElems_filter_heading,
      breakElems_filter_heading, List.length_nil]
    simp [isChapterHeading]
    omega

/-- When the image step for a chapter fails in any of the three ways, the
image block of /api/generate-pdf renders exactly the inline placeholder. -/
theorem imgElems_eq_placeholder_of_fails
    (fetchImage : String → Except String (List Nat))
    (decodeDims : List Nat → Except String (Nat × Nat)) (url : String)
    (hne : url ≠ "") (hfail : imageStepFails fetchImage decodeDims url) :
    (if url ≠ "" then
      match fetchImage url with
      | .error _ => [PdfElem.imagePlaceholder "Error loading image"]
      | .ok buf =>
        if buf.length = 0 then [PdfElem.imagePlaceholder "Error loading image"]
        else
          match decodeDims buf with
          | .error _ => [PdfElem.imagePlaceholder "Error loading image"]
          | .ok _ => [PdfElem.chapterImage]
    else []) = [PdfElem.imagePlaceholder "Error loading image"] := by
  rw [if_pos hne]
  rcases hfail with ⟨e, hf⟩ | ⟨buf, hf, hb⟩ | ⟨buf, e, hf, hb, hd⟩
  · simp only [hf]
  · simp only [hf]
    rw [if_pos hb]
  · simp only [hf]
    rw [if_neg hb]
    simp only [hd]

/-- A failed image step (fetch or decode) for the chapter at position `j`
puts the inline placeholder at that chapter's position: the document
splits as `pre ++ placeholder :: post` where `pre` holds exactly the
headings up to and including that chapter's own. -/
theorem generatePdf_placeholder_positioned (storyData : ObjMap)
    (imageUrls : List String) (fetchImage : String → Except String (List Nat))
    (decodeDims : List Nat → Except String (Nat × Nat)) :
    ∀ (keys : List String) (i j : Nat),
      j < keys.length →
      imageUrls.getD (i + j) "" ≠ "" →
      imageStepFails fetchImage decodeDims (imageUrls.getD (i + j) "") →
      ∃ pre post,
        generatePdfChapterLoop storyData imageUrls fetchImage decodeDims keys i
          = pre ++ PdfElem.imagePlaceholder "Error loading image" :: post
        ∧ (pre.filter isChapterHeading).length = j + 1 := by
  intro keys
  induction keys with
  | nil => intro i j hj _ _; simp at hj
  | cons k rest ih =>
    intro i j hj hne hfail
    cases j with
    | zero =>
      rw [Nat.add_zero] at hne hfail
      have himg := imgElems_eq_placeholder_of_fails fetchImage decodeDims
        (imageUrls.getD i "") hne hfail
      simp only [generatePdfChapterLoop]
      rw [himg]
      refine ⟨[PdfElem.chapterHeading ("Chapter " ++ toString (i + 1) ++ ": "
            ++ (List.lookup (k ++ "Name") storyData).getD "undefined")]
          ++ (jsSplit "\n\n" ((List.lookup k storyData).getD "")).map PdfElem.paragraph
          ++ [PdfElem.pageBreak],
        (if rest ≠ [] then [PdfElem.pageBreak] else [])
          ++ generatePdfChapterLoop storyData imageUrls fetchImage decodeDims
              rest (i + 1), ?_, ?_⟩
      · simp [List.append_assoc]
      · simp only [List.filter_append, List.length_append,
          filter_heading_map_paragraph, List.length_nil]
        simp [isChapterHeading]
    | succ j' =>
      have hne' : imageUrls.getD (i + 1 + j') "" ≠ "" := by
        rw [show i + 1 + j' = i + (j' + 1) from by omega]; exact hne
      have hfail' : imageStepFails fetchImage decodeDims
          (imageUrls.getD (i + 1 + j') "") := by
        rw [show i + 1 + j' = i + (j' + 1) from by omega]; exact hfail
      obtain ⟨pre', post', hdec, hcount⟩ :=
        ih (i + 1) j' (by simpa using hj) hne' hfail'
      simp only [generatePdfChapterLoop]
      refine ⟨([PdfElem.chapterHeading ("Chapter " ++ toString (i + 1) ++ ": "
            ++ (List.lookup (k ++ "Name") storyData).getD "undefined")]
          ++ (jsSplit "\n\n" ((List.lookup k storyData).getD "")).map PdfElem.paragraph
          ++ [PdfElem.pageBreak]
          ++ (if imageUrls.getD i "" ≠ "" then
                match fetchImage (imageUrls.getD i "") with
                | .error _ => [PdfElem.imagePlaceholder "Error loading image"]
                | .ok buf =>
                  if buf.length = 0 then [PdfElem.imagePlaceholder "Error loading image"]
                  else
                    match decodeDims buf with
                    | .error _ => [PdfElem.imagePlaceholder "Error loading image"]
                    | .ok _ => [PdfElem.chapterImage]
              else [])
          ++ (if rest ≠ [] then [PdfElem.pageBreak] else [])) ++ pre', post', ?_, ?_⟩
      · rw [hdec, ← List.append_assoc]
      · simp only [List.filter_append, List.length_append, hcount,
          filter_heading_map_paragraph, imgElems_filter_heading,
          breakElems_filter_heading, List.length_nil]
        simp [isChapterHeading]
        omega

/-- /api/generate-pdf-preview never emits any placeholder element: a failed
image is skipped silently. -/
theorem preview_no_placeholder (storyData : ObjMap) (imageUrls : List String)
    (fetchImage : String → Except String (List Nat))
    (decodeDims : List Nat → Except String (Nat × Nat)) :
    ∀ (keys : List String) (i : Nat) (s : String),
      PdfElem.imagePlaceholder s
        ∉ previewChapterLoop storyData imageUrls fetchImage decodeDims keys i := by
  intro keys
  induction keys with
  | nil => intro i s h; simp [previewChapterLoop] at h
  | cons k rest ih =>
    intro i s h
    simp only [previewChapterLoop, List.mem_append] at h
    rcases h with ((((h | h) | h) | h) | h)
    · simp at h
    · rcases List.mem_map.mp h with ⟨a, _, ha⟩
      simp at ha
    · split at h
      all_goals try simp at h
      all_goals split at h
      all_goals try simp at h
      all_goals split at h
      all_goals simp at h
    · by_cases hr : rest ≠ []
      · rw [if_pos hr] at h; simp at h
      · rw [if_neg hr] at h; simp at h
    · exact ih (i + 1) s h

/-! Claim C8. -/

/-- Claim C8, counterexample: in the /api/pdf assembly pass (which has no
try/catch around the image download) a failed chapter-image fetch aborts
the whole document — the handler rethrows the download error instead of
inserting a placeholder; and the /api/generate-pdf-preview pass, while it
does continue, inserts no placeholder either. -/
theorem image_failure_abort_counterexample :
    apiPdfHandler (some [("chapter1", "Once")]) (some ["http://img1"]) "T"
        (fun _ => .error "getaddrinfo ENOTFOUND")
      = ApiPdfResult.jsError "getaddrinfo ENOTFOUND"
    ∧ PdfElem.imagePlaceholder "Error loading image"
        ∉ previewChapterLoop [("chapter1", "Once")] ["http://img1"]
            (fun _ => .error "download failed") (fun _ => .error "decode failed")
            ["chapter1"] 0 :=
  ⟨rfl, by decide⟩

/-- Claim C8, amended: only the /api/generate-pdf assembly pass behaves as
claimed — a failure to fetch or decode a chapter's image (a download
error, an empty downloaded buffer, or a dimension-decoding error) results
in the visible inline "Error loading image" placeholder at that chapter's
position: the document splits as `pre ++ placeholder :: post` where `pre`
contains exactly the headings up to and including the failing chapter's
own and `post` the remaining ones, and the rest of the document is still
assembled (one heading per chapter, the pass is total).  The
/api/generate-pdf-preview pass continues but never inserts any
placeholder; and the /api/pdf pass aborts the whole document on an image
failure (see the counterexample). -/
theorem image_failure_amended :
    (∀ (storyData : ObjMap) (imageUrls : List String)
        (fetchImage : String → Except String (List Nat))
        (decodeDims : List Nat → Except String (Nat × Nat))
        (keys : List String) (i j : Nat),
      j < keys.length →
      imageUrls.getD (i + j) "" ≠ "" →
      imageStepFails fetchImage decodeDims (imageUrls.getD (i + j) "") →
      ∃ pre post,
        generatePdfChapterLoop storyData imageUrls fetchImage decodeDims keys i
          = pre ++ PdfElem.imagePlaceholder "Error loading image" :: post
        ∧ (pre.filter isChapterHeading).length = j + 1
        ∧ (post.filter isChapterHeading).length = keys.length - (j + 1))
    ∧ (∀ (storyData : ObjMap) (imageUrls : List String)
        (fetchImage : String → Except String (List Nat))
        (decodeDims : List Nat → Except String (Nat × Nat))
        (keys : List String) (i : Nat),
      ((generatePdfChapterLoop storyData imageUrls fetchImage decodeDims keys i).filter
          isChapterHeading).length = keys.length)
    ∧ (∀ (storyData : ObjMap) (imageUrls : List String)
        (fetchImage : String → Except String (List Nat))
        (decodeDims : List Nat → Except String (Nat × Nat))
        (keys : List String) (i : Nat) (s : String),
      PdfElem.imagePlaceholder s
        ∉ previewChapterLoop storyData imageUrls fetchImage decodeDims keys i) := by
  refine ⟨?_, ?_, ?_⟩
  · intro storyData imageUrls fetchImage decodeDims keys i j hj hne hfail
    obtain ⟨pre, post, hdec, hpre⟩ :=
      generatePdf_placeholder_positioned storyData imageUrls fetchImage decodeDims
        keys i j hj hne hfail
    refine ⟨pre, post, hdec, hpre, ?_⟩
    have htot := generatePdf_heading_count storyData imageUrls fetchImage decodeDims keys i
    rw [hdec] at htot
    simp only [List.filter_append, List.length_append] at htot
    rw [List.filter_cons_of_neg (by simp [isChapterHeading])] at htot
    omega
  · intro storyData imageUrls fetchImage decodeDims keys i
    exact generatePdf_heading_count storyData imageUrls fetchImage decodeDims keys i
  · intro storyData imageUrls fetchImage decodeDims keys i s
    exact preview_no_placeholder storyData imageUrls fetchImage decodeDims keys i s

/-- Claim C8, witness for the amended theorem: with a two-chapter
document, a download failure on chapter 1 puts the placeholder in chapter
1's section (one heading before it, one after), and a decode failure
(`sizeOf` throwing on a non-empty buffer) on chapter 2 puts it in chapter
2's section (both headings before it, none after); both documents keep
their 2 headings, and the preview variant stays placeholder-free. -/
theorem image_failure_amended_witness :
    (∃ pre post,
        generatePdfChapterLoop [("chapter1", "Once"), ("chapter2", "Later")]
            ["http://img1", "http://img2"] (fun _ => .error "ENOTFOUND")
            (fun _ => .ok (400, 300)) ["chapter1", "chapter2"] 0
          = pre ++ PdfElem.imagePlaceholder "Error loading image" :: post
        ∧ (pre.filter isChapterHeading).length = 1
        ∧ (post.filter isChapterHeading).length = 1)
    ∧ (∃ pre post,
        generatePdfChapterLoop [("chapter1", "Once"), ("chapter2", "Later")]
            ["http://img1", "http://img2"] (fun _ => .ok [7])
            (fun _ => .error "unsupported image") ["chapter1", "chapter2"] 0
          = pre ++ PdfElem.imagePlaceholder "Error loading image" :: post
        ∧ (pre.filter isChapterHeading).length = 2
        ∧ (post.filter isChapterHeading).length = 0)
    ∧ ((generatePdfChapterLoop [("chapter1", "Once"), ("chapter2", "Later")]
          ["http://img1", "http://img2"] (fun _ => .error "ENOTFOUND")
          (fun _ => .ok (400, 300)) ["chapter1", "chapter2"] 0).filter
            isChapterHeading).length = 2
    ∧ PdfElem.imagePlaceholder "Error loading image"
        ∉ previewChapterLoop [("chapter1", "Once")] ["http://img1"]
            (fun _ => .error "ENOTFOUND") (fun _ => .ok (400, 300))
            ["chapter1"] 0 :=
  ⟨image_failure_amended.1 _ _ _ _ _ 0 0 (by decide) (by decide)
      (Or.inl ⟨"ENOTFOUND", rfl⟩),
   image_failure_amended.1 _ _ _ _ _ 0 1 (by decide) (by decide)
      (Or.inr (Or.inr ⟨[7], "unsupported image", rfl, by decide, rfl⟩)),
   image_failure_amended.2.1 [("chapter1", "Once"), ("chapter2", "Later")]
      ["http://img1", "http://img2"] (fun _ => .error "ENOTFOUND")
      (fun _ => .ok (400, 300)) ["chapter1", "chapter2"] 0,
   image_failure_amended.2.2 _ _ _ _ _ 0 "Error loading image"⟩

/-! Claim C10. -/

/-- Claim C10: the /api/pdf handler validates only the presence of
`storyData`: a request with a `storyData` carrying at least one chapter
key but no `imageUrls` field is not rejected with 400; the chapter loop
then indexes into the absent `imageUrls` value and the handler fails with
a TypeError, outside the documented 400-missing-storyData response. -/
theorem api_pdf_missing_image_urls (storyData : ObjMap) (storyName : String)
    (fetchImage : String → Except String Nat)
    (hkeys : chapterKeysOf storyData ≠ []) :
    apiPdfHandler (some storyData) none storyName fetchImage
      ≠ ApiPdfResult.badRequest
    ∧ apiPdfHandler (some storyData) none storyName fetchImage
      = ApiPdfResult.jsError "TypeError: Cannot read properties of undefined" := by
  obtain ⟨k, ks, hlist⟩ := List.exists_cons_of_ne_nil hkeys
  have hloop : apiPdfChapterLoop storyData none fetchImage
      (chapterKeysOf storyData) 0
      = .error "TypeError: Cannot read properties of undefined" := by
    rw [hlist]
    rfl
  constructor
  · simp [apiPdfHandler, hloop]
  · simp [apiPdfHandler, hloop]

/-- Claim C10, witness at a concrete request body. -/
theorem api_pdf_missing_image_urls_witness :
    apiPdfHandler (some [("chapter1", "Once upon a time")]) none "Tale"
        (fun _ => .ok 0)
      ≠ ApiPdfResult.badRequest
    ∧ apiPdfHandler (some [("chapter1", "Once upon a time")]) none "Tale"
        (fun _ => .ok 0)
      = ApiPdfResult.jsError "TypeError: Cannot read properties of undefined" :=
  api_pdf_missing_image_urls _ _ _ (by decide)
